import Mathlib

/-!
Shallow embedding of the RAG backend pipeline of this repository
(backend/vector_database.py and backend/document_inject.py).

The two external collaborators, the vector store and the embedding
provider, are modelled as oracle parameters that give the outcome of each
network call.  Every modelled operation also returns the trace of the
network requests and sleeps it performed, so that claims about call counts,
pacing delays and the absence of calls can be stated and proved.
-/

namespace RagPipeline

/-- Result of a Python call: a normal return value, or a raised exception
carrying its message. -/
inductive PyOutcome (α : Type) where
  | ok (a : α)
  | raised (msg : String)
deriving DecidableEq

/-- Outcome of one network request to an external collaborator: a value, or
an exception with a message. -/
inductive QOutcome (α : Type) where
  | ok (a : α)
  | err (msg : String)
deriving DecidableEq

/-- One observable effect of the pipeline: a request to the vector store or
to the embedding provider, or a sleep of the given number of seconds. -/
inductive Event where
  | getCollectionsEv
  | createCollectionEv (name : String)
  | getCollectionEv (name : String)
  | createIndexEv (name : String) (field : String)
  | embedCallEv (inputs : List String)
  | upsertEv (name : String) (count : Nat)
  | queryEv (name : String) (limit : Nat)
  | deleteEv (name : String) (source : String)
  | sleepEv (seconds : Nat)
deriving DecidableEq

/-- Every event except a sleep is a network request. -/
def Event.isNetwork : Event → Bool
  | .sleepEv _ => false
  | _ => true

/-- Recognizes a request to the embedding provider. -/
def Event.isEmbedCall : Event → Bool
  | .embedCallEv _ => true
  | _ => false

/-- Recognizes an upsert request to the vector store. -/
def Event.isUpsert : Event → Bool
  | .upsertEv _ _ => true
  | _ => false

/-- Recognizes a sleep. -/
def Event.isSleep : Event → Bool
  | .sleepEv _ => true
  | _ => false

/-- Recognizes a payload-index creation request. -/
def Event.isCreateIndex : Event → Bool
  | .createIndexEv _ _ => true
  | _ => false

/-- Module constant SAFE_BATCH_SIZE of vector_database.py. -/
def SAFE_BATCH_SIZE : Nat := 8

/-- Module constant BASE_DELAY of vector_database.py. -/
def BASE_DELAY : Nat := 20

/-- Module constant MAX_RETRIES of vector_database.py. -/
def MAX_RETRIES : Nat := 10

/-- Module constant ESTIMATED_BYTES_PER_CHUNK of vector_database.py. -/
def ESTIMATED_BYTES_PER_CHUNK : Nat := 1024 * 4 + 1000

/-- Module constant USER_STORAGE_LIMIT_MB of vector_database.py. -/
def USER_STORAGE_LIMIT_MB : Nat := 500

/-- ASCII lowering of one character, the effect of the Python str.lower on
the ASCII error messages the source inspects. -/
def lowerAscii (c : Char) : Char :=
  if 'A' ≤ c && c ≤ 'Z' then Char.ofNat (c.toNat + 32) else c

/-- ASCII lowering of a string. -/
def toLowerStr (s : String) : String := ⟨s.data.map lowerAscii⟩

/-- The pattern occurs as a contiguous run of the character list. -/
def charsContain (pat : List Char) : List Char → Bool
  | [] => pat.isEmpty
  | c :: t => List.isPrefixOf pat (c :: t) || charsContain pat t

/-- Substring containment, the Python membership test on strings. -/
def containsSubstr (s pat : String) : Bool :=
  charsContain pat.data s.data

/-- Rate-limit detection of embed_batch_with_retry: the lowercased
exception text contains one of the provider throttle markers. -/
def isRateLimitMsg (msg : String) : Bool :=
  let m := toLowerStr msg
  containsSubstr m ("rate limit") || containsSubstr m ("rpm") || containsSubstr m ("tpm")

/-- Outcome of one attempt of the provider embedding call: the embeddings
on success, a provider error with its message, or any other exception. -/
inductive EmbedOutcome where
  | success (embs : List (List Int))
  | voyageError (msg : String)
  | otherError (msg : String)
deriving DecidableEq

/-- The retry loop of embed_batch_with_retry, one step per remaining loop
iteration; the Python loop runs attempt = 0 .. MAX_RETRIES - 1 and falling
off the end of the loop returns None, modelled as ok none.  A rate-limited
provider error sleeps BASE_DELAY + attempt * 10 and retries; any other
exception sleeps 10 * 2 ^ attempt and retries unless this is the final
attempt; a non-rate-limited provider error is re-raised at once. -/
def embedAttempts (batch : List String) (oracle : Nat → EmbedOutcome) :
    Nat → Nat → PyOutcome (Option (List (List Int))) × List Event
  | _, 0 => (.ok none, [])
  | attempt, fuel + 1 =>
    match oracle attempt with
    | .success embs => (.ok (some embs), [.embedCallEv batch])
    | .voyageError msg =>
      if isRateLimitMsg msg then
        let r := embedAttempts batch oracle (attempt + 1) fuel
        (r.1, .embedCallEv batch :: .sleepEv (BASE_DELAY + attempt * 10) :: r.2)
      else
        (.raised msg, [.embedCallEv batch])
    | .otherError msg =>
      if attempt < MAX_RETRIES - 1 then
        let r := embedAttempts batch oracle (attempt + 1) fuel
        (r.1, .embedCallEv batch :: .sleepEv (10 * 2 ^ attempt) :: r.2)
      else
        (.raised msg, [.embedCallEv batch])

/-- Model of embed_batch_with_retry: the attempt loop started at attempt 0
with MAX_RETRIES iterations available. -/
def embed_batch_with_retry (batch : List String) (oracle : Nat → EmbedOutcome) :
    PyOutcome (Option (List (List Int))) × List Event :=
  embedAttempts batch oracle 0 MAX_RETRIES

/-- Payload schema of a collection as reported by get_collection: field
name paired with its data type. -/
abbrev Schema := List (String × String)

/-- The schema already holds the keyword index on the source field required
by ensure_payload_indexes. -/
def hasSourceKeyword (schema : Schema) : Bool :=
  match schema.find? (fun p => p.1 == "source") with
  | some p => p.2 == "keyword"
  | none => false

/-- Polling loop of ensure_payload_indexes: each iteration sleeps 3 seconds
then reads the collection, stopping as soon as the source keyword index is
visible; when the loop exhausts its iterations the for/else in the source
raises. -/
def pollLoop (name : String) (poll : Nat → Schema) :
    Nat → Nat → PyOutcome Unit × List Event
  | _, 0 => (.raised ("Failed to confirm index for source after 10 attempts"), [])
  | k, fuel + 1 =>
    if hasSourceKeyword (poll k) then
      (.ok (), [.sleepEv 3, .getCollectionEv name])
    else
      let r := pollLoop name poll (k + 1) fuel
      (r.1, .sleepEv 3 :: .getCollectionEv name :: r.2)

/-- Model of ensure_payload_indexes: read the collection; when the source
keyword index is present nothing further happens; otherwise request the
index creation and poll up to 10 times; any failure is logged and
re-raised. -/
def ensure_payload_indexes (name : String) (initial : QOutcome Schema)
    (poll : Nat → Schema) : PyOutcome Unit × List Event :=
  match initial with
  | .err msg => (.raised msg, [.getCollectionEv name])
  | .ok schema =>
    if hasSourceKeyword schema then
      (.ok (), [.getCollectionEv name])
    else
      let r := pollLoop name poll 0 10
      (r.1, .getCollectionEv name :: .createIndexEv name ("source") :: r.2)

/-- A persisted point of the vector store: identifier, vector and the
payload fields written by embed_and_store. -/
structure Point where
  id : String
  vector : List Int
  text : String
  source : String
  chunk_index : Nat
deriving DecidableEq

/-- Upsert semantics of the vector store: existing points whose id matches
an incoming point are replaced, every other point is kept, and the incoming
points are appended. -/
def upsertPoints (existing incoming : List Point) : List Point :=
  existing.filter (fun p => incoming.all (fun q => q.id != p.id)) ++ incoming

/-- The point list built inside the batch loop of embed_and_store: one
point per pair of the zip of the embeddings with the batch, with the
identifier drawn from the uuid stream at the global chunk position
i + j and that same position recorded as chunk_index. -/
def mkBatchPoints (uuid : Nat → String) (source : String) (i : Nat)
    (embs : List (List Int)) (batch : List String) : List Point :=
  (embs.zip batch).enum.map (fun jc =>
    { id := uuid (i + jc.1), vector := jc.2.1, text := jc.2.2,
      source := source, chunk_index := i + jc.1 })

/-- The batch loop of embed_and_store: the slice chunks[i : i + 8] is
embedded with retry, turned into points, upserted, and the loop sleeps
BASE_DELAY whenever another batch follows.  A None result of the retry
helper (its exhausted-rate-limit path) makes the zip in the point
comprehension raise a TypeError inside embed_and_store. -/
def storeLoop (oracle : Nat → Nat → EmbedOutcome) (uuid : Nat → String)
    (source cname : String) (bidx i stored : Nat) (store : List Point)
    (rem : List String) : PyOutcome Nat × List Point × List Event :=
  if h : rem.isEmpty then (.ok stored, store, [])
  else
    let batch := rem.take SAFE_BATCH_SIZE
    let er := embed_batch_with_retry batch (oracle bidx)
    match er.1 with
    | .raised msg => (.raised msg, store, er.2)
    | .ok none =>
      (.raised ("TypeError: argument of type NoneType is not iterable"), store, er.2)
    | .ok (some embs) =>
      let pts := mkBatchPoints uuid source i embs batch
      let store2 := upsertPoints store pts
      let rest := rem.drop SAFE_BATCH_SIZE
      let r := storeLoop oracle uuid source cname (bidx + 1) (i + SAFE_BATCH_SIZE)
        (stored + batch.length) store2 rest
      (r.1, r.2.1,
        (er.2 ++ [Event.upsertEv cname pts.length])
          ++ (if rest.isEmpty then [] else [Event.sleepEv BASE_DELAY]) ++ r.2.2)
termination_by rem.length
decreasing_by
  simp only [List.length_drop]
  cases rem with
  | nil => simp at h
  | cons a t =>
    simp only [SAFE_BATCH_SIZE, List.length_cons]
    omega

/-- Model of embed_and_store: list the collections, create the collection
when missing, always ensure the payload indexes, return 0 for an empty
chunk list, and otherwise run the batch loop.  Returns the outcome, the
collection points after the call, and the event trace. -/
def embed_and_store (collections : List String) (ensureInit : QOutcome Schema)
    (ensurePoll : Nat → Schema) (oracle : Nat → Nat → EmbedOutcome)
    (uuid : Nat → String) (store : List Point) (chunks : List String)
    (source cname : String) : PyOutcome Nat × List Point × List Event :=
  let createEvs :=
    if collections.contains cname then [Event.getCollectionsEv]
    else [Event.getCollectionsEv, Event.createCollectionEv cname]
  let ens := ensure_payload_indexes cname ensureInit ensurePoll
  match ens.1 with
  | .raised msg => (.raised msg, store, createEvs ++ ens.2)
  | .ok _ =>
    if chunks.isEmpty then (.ok 0, store, createEvs ++ ens.2)
    else
      let r := storeLoop oracle uuid source cname 0 0 0 store chunks
      (r.1, r.2.1, createEvs ++ ens.2 ++ r.2.2)

/-- A search hit as returned by search_relevant_chunks: the payload fields
together with the similarity score. -/
structure ScoredPoint where
  text : String
  source : String
  chunk_index : Nat
  score : Int
deriving DecidableEq

/-- Model of search_relevant_chunks: an absent collection gives an empty
list; ensure_payload_indexes runs outside any try so its failure
propagates; the question embedding and the similarity query each sit in
their own try whose handler returns the empty list. -/
def search_relevant_chunks (collections : List String)
    (ensureInit : QOutcome Schema) (ensurePoll : Nat → Schema)
    (embedQ : QOutcome (List Int)) (queryQ : QOutcome (List ScoredPoint))
    (question cname : String) (top_k : Nat) :
    PyOutcome (List ScoredPoint) × List Event :=
  if collections.contains cname then
    let ens := ensure_payload_indexes cname ensureInit ensurePoll
    match ens.1 with
    | .raised msg => (.raised msg, Event.getCollectionsEv :: ens.2)
    | .ok _ =>
      match embedQ with
      | .err _ =>
        (.ok [], Event.getCollectionsEv :: ens.2 ++ [Event.embedCallEv [question]])
      | .ok _ =>
        match queryQ with
        | .err _ =>
          (.ok [], Event.getCollectionsEv :: ens.2
            ++ [Event.embedCallEv [question], Event.queryEv cname top_k])
        | .ok pts =>
          (.ok pts, Event.getCollectionsEv :: ens.2
            ++ [Event.embedCallEv [question], Event.queryEv cname top_k])
  else
    (.ok [], [Event.getCollectionsEv])

/-- Model of delete_user_document: an absent collection is a no-op; the
payload indexes are ensured with failure propagating; the filtered delete
removes exactly the points whose source payload matches the filename, and a
store failure is logged and re-raised. -/
def delete_user_document (collections : List String)
    (ensureInit : QOutcome Schema) (ensurePoll : Nat → Schema)
    (deleteQ : QOutcome Unit) (store : List Point)
    (cname filename : String) : PyOutcome Unit × List Point × List Event :=
  if collections.contains cname then
    let ens := ensure_payload_indexes cname ensureInit ensurePoll
    match ens.1 with
    | .raised msg => (.raised msg, store, Event.getCollectionsEv :: ens.2)
    | .ok _ =>
      match deleteQ with
      | .err msg =>
        (.raised msg, store,
          Event.getCollectionsEv :: ens.2 ++ [Event.deleteEv cname filename])
      | .ok _ =>
        (.ok (), store.filter (fun p => p.source != filename),
          Event.getCollectionsEv :: ens.2 ++ [Event.deleteEv cname filename])
  else
    (.ok (), store, [Event.getCollectionsEv])

/-- The stats record of get_collection_stats. -/
structure Stats where
  total_chunks : Nat
  used_mb : ℚ
  available_mb : ℚ
  limit_mb : Nat
deriving DecidableEq

/-- Rounding to two decimal places over the rationals, standing in for the
Python float round; the two differ only at exact half-cent ties, which the
float computation of the source cannot produce exactly. -/
def round2 (q : ℚ) : ℚ := (⌊q * 100 + 1 / 2⌋ : ℚ) / 100

/-- Model of get_collection_stats: the point count times the byte constant
scaled to megabytes, the remaining capacity clamped at zero, and a zeroed
record with the full limit remaining on any read failure. -/
def get_collection_stats (info : QOutcome Nat) : Stats :=
  match info with
  | .ok n =>
    let used_mb := round2 ((n * ESTIMATED_BYTES_PER_CHUNK : ℚ) / (1024 * 1024))
    let available_mb := max 0 (round2 ((USER_STORAGE_LIMIT_MB : ℚ) - used_mb))
    { total_chunks := n, used_mb := used_mb, available_mb := available_mb,
      limit_mb := USER_STORAGE_LIMIT_MB }
  | .err _ =>
    { total_chunks := 0, used_mb := 0, available_mb := (USER_STORAGE_LIMIT_MB : ℚ),
      limit_mb := USER_STORAGE_LIMIT_MB }

/-- The whitespace characters removed by the Python str.strip default. -/
def isPyWhitespace (c : Char) : Bool :=
  c == ' ' || c == '\t' || c == '\n' || c == Char.ofNat 11 || c == Char.ofNat 12 || c == '\r'

/-- Python str.strip: leading and trailing whitespace removed. -/
def pyStrip (s : String) : String :=
  ⟨((s.data.dropWhile isPyWhitespace).reverse.dropWhile isPyWhitespace).reverse⟩

/-- Model of chunk_text of document_inject.py: text that strips to the
empty string short-circuits to the empty list before the recursive splitter
ever runs; otherwise the external splitter produces the result. -/
def chunk_text (splitter : String → PyOutcome (List String)) (text : String) :
    PyOutcome (List String) :=
  if (pyStrip text).data.isEmpty then .ok [] else splitter text

/-- Number of embedding-provider requests in a trace. -/
def countEmbedCalls (evs : List Event) : Nat := (evs.filter Event.isEmbedCall).length

/-- Number of upsert requests in a trace. -/
def countUpserts (evs : List Event) : Nat := (evs.filter Event.isUpsert).length

/-- Number of sleeps in a trace. -/
def countSleeps (evs : List Event) : Nat := (evs.filter Event.isSleep).length

/-- The batches recorded by the embedding-provider requests of a trace, in
order. -/
def embedBatches (evs : List Event) : List (List String) :=
  evs.filterMap (fun e => match e with | .embedCallEv b => some b | _ => none)

/-- The batch partition walked by embed_and_store: successive slices of at
most SAFE_BATCH_SIZE chunks, in the original order. -/
def batchesOf (l : List String) : List (List String) :=
  if h : l.isEmpty then []
  else l.take SAFE_BATCH_SIZE :: batchesOf (l.drop SAFE_BATCH_SIZE)
termination_by l.length
decreasing_by
  simp only [List.length_drop]
  cases l with
  | nil => simp at h
  | cons a t =>
    simp only [SAFE_BATCH_SIZE, List.length_cons]
    omega

/-- The points embed_and_store creates for a chunk list: the batch loop
point construction, batch by batch. -/
def genPoints (uuid : Nat → String) (embsOf : Nat → List (List Int))
    (source : String) (bidx i : Nat) (rem : List String) : List Point :=
  if h : rem.isEmpty then []
  else
    mkBatchPoints uuid source i (embsOf bidx) (rem.take SAFE_BATCH_SIZE) ++
      genPoints uuid embsOf source (bidx + 1) (i + SAFE_BATCH_SIZE) (rem.drop SAFE_BATCH_SIZE)
termination_by rem.length
decreasing_by
  simp only [List.length_drop]
  cases rem with
  | nil => simp at h
  | cons a t =>
    simp only [SAFE_BATCH_SIZE, List.length_cons]
    omega

/-- The identifiers of a point list. -/
def pointIds (l : List Point) : List String := l.map Point.id

/-- A Python call returned normally. -/
def isOk {α : Type} : PyOutcome α → Bool
  | .ok _ => true
  | .raised _ => false

/-- A concrete twenty-chunk document used to instantiate the batching
properties. -/
def c20 : List String :=
  ["c1", "c2", "c3", "c4", "c5", "c6", "c7", "c8", "c9", "c10",
   "c11", "c12", "c13", "c14", "c15", "c16", "c17", "c18", "c19", "c20"]

/-- A deterministic injective identifier stream, standing in for one run of
the uuid generator. -/
def uuidU (n : Nat) : String := ⟨List.replicate (n + 1) 'u'⟩

/-- A second identifier stream disjoint from the first, standing in for the
uuid generator of a later run. -/
def uuidV (n : Nat) : String := ⟨List.replicate (n + 1) 'v'⟩

/-! ### Helper lemmas about the retry loop -/

theorem embedAttempts_first_success (batch : List String) (oracle : Nat → EmbedOutcome)
    (attempt fuel : Nat) (embs : List (List Int)) (hf : 0 < fuel)
    (h : oracle attempt = EmbedOutcome.success embs) :
    embedAttempts batch oracle attempt fuel = (.ok (some embs), [.embedCallEv batch]) := by
  cases fuel with
  | zero => omega
  | succ f => simp [embedAttempts, h]

theorem embed_retry_first_success (batch : List String) (oracle : Nat → EmbedOutcome)
    (embs : List (List Int)) (h : oracle 0 = EmbedOutcome.success embs) :
    embed_batch_with_retry batch oracle = (.ok (some embs), [.embedCallEv batch]) :=
  embedAttempts_first_success batch oracle 0 MAX_RETRIES embs (by decide) h

/-! ### Helper lemmas about index provisioning -/

theorem ensure_ok_of_keyword (name : String) (schema : Schema) (poll : Nat → Schema)
    (h : hasSourceKeyword schema = true) :
    ensure_payload_indexes name (QOutcome.ok schema) poll = (.ok (), [.getCollectionEv name]) := by
  simp [ensure_payload_indexes, h]

theorem pollLoop_sleep_seconds (name : String) (poll : Nat → Schema) :
    ∀ fuel k s, Event.sleepEv s ∈ (pollLoop name poll k fuel).2 → s = 3 := by
  intro fuel
  induction fuel with
  | zero => intro k s hs; simp [pollLoop] at hs
  | succ f ih =>
    intro k s hs
    by_cases hk : hasSourceKeyword (poll k)
    · simp [pollLoop, hk] at hs
      exact hs
    · simp [pollLoop, hk] at hs
      rcases hs with hs | hs
      · exact hs
      · exact ih (k + 1) s hs

theorem pollLoop_sleep_count (name : String) (poll : Nat → Schema) :
    ∀ fuel k, countSleeps (pollLoop name poll k fuel).2 ≤ fuel := by
  intro fuel
  induction fuel with
  | zero => intro k; simp [pollLoop, countSleeps]
  | succ f ih =>
    intro k
    by_cases hk : hasSourceKeyword (poll k)
    · simp [pollLoop, hk, countSleeps, Event.isSleep]
    · have h2 := ih (k + 1)
      simp only [countSleeps] at h2
      simp [pollLoop, hk, countSleeps, Event.isSleep, List.filter_cons]
      omega

theorem pollLoop_all_fail (name : String) (poll : Nat → Schema) :
    ∀ fuel k, (∀ j, j < fuel → hasSourceKeyword (poll (k + j)) = false) →
      (pollLoop name poll k fuel).1
        = .raised ("Failed to confirm index for source after 10 attempts") := by
  intro fuel
  induction fuel with
  | zero => intro k _; simp [pollLoop]
  | succ f ih =>
    intro k hall
    have h0 : hasSourceKeyword (poll k) = false := by
      have := hall 0 (by omega)
      simpa using this
    simp only [pollLoop, h0, Bool.false_eq_true, if_false]
    exact ih (k + 1) (fun j hj => by
      have := hall (j + 1) (by omega)
      simpa [Nat.add_assoc, Nat.add_comm 1 j] using this)

/-! ### Helper lemmas about batching -/

theorem batchesOf_nil : batchesOf [] = [] := by
  rw [batchesOf]
  rfl

theorem batchesOf_cons (a : String) (t : List String) :
    batchesOf (a :: t)
      = (a :: t).take SAFE_BATCH_SIZE :: batchesOf ((a :: t).drop SAFE_BATCH_SIZE) := by
  rw [batchesOf]
  rfl

theorem batchesOf_ne_nil (l : List String) (h : l ≠ []) :
    batchesOf l = l.take SAFE_BATCH_SIZE :: batchesOf (l.drop SAFE_BATCH_SIZE) := by
  cases l with
  | nil => exact absurd rfl h
  | cons a t => exact batchesOf_cons a t

theorem batchesOf_join : ∀ n (l : List String), l.length ≤ n → (batchesOf l).flatten = l := by
  intro n
  induction n with
  | zero =>
    intro l h
    have : l = [] := List.length_eq_zero.mp (by omega)
    subst this
    simp [batchesOf_nil]
  | succ m ih =>
    intro l h
    cases l with
    | nil => simp [batchesOf_nil]
    | cons a t =>
      rw [batchesOf_cons]
      have hd : ((a :: t).drop SAFE_BATCH_SIZE).length ≤ m := by
        simp only [List.length_drop, List.length_cons, SAFE_BATCH_SIZE]
        simp only [List.length_cons] at h
        omega
      simp only [List.flatten_cons, ih _ hd]
      exact List.take_append_drop SAFE_BATCH_SIZE (a :: t)

theorem batchesOf_sizes : ∀ n (l : List String), l.length ≤ n →
    ∀ b ∈ batchesOf l, b.length ≤ SAFE_BATCH_SIZE := by
  intro n
  induction n with
  | zero =>
    intro l h
    have : l = [] := List.length_eq_zero.mp (by omega)
    subst this
    simp [batchesOf_nil]
  | succ m ih =>
    intro l h b hb
    cases l with
    | nil => simp [batchesOf_nil] at hb
    | cons a t =>
      rw [batchesOf_cons] at hb
      rcases List.mem_cons.mp hb with hb | hb
      · subst hb
        simp [List.length_take]
      · exact ih _ (by
          simp only [List.length_drop, List.length_cons, SAFE_BATCH_SIZE]
          simp only [List.length_cons] at h
          omega) b hb

theorem batchesOf_cons_ne_nil (a : String) (t : List String) : batchesOf (a :: t) ≠ [] := by
  rw [batchesOf_cons]
  exact List.cons_ne_nil _ _

/-! ### The batch loop on an always-successful embedding oracle -/

theorem storeLoop_success (oracle : Nat → Nat → EmbedOutcome) (embsOf : Nat → List (List Int))
    (uuid : Nat → String) (source cname : String)
    (hsucc : ∀ b, oracle b 0 = EmbedOutcome.success (embsOf b)) :
    ∀ n (rem : List String), rem.length ≤ n → ∀ bidx i stored store,
      (storeLoop oracle uuid source cname bidx i stored store rem).1
          = PyOutcome.ok (stored + rem.length)
      ∧ embedBatches (storeLoop oracle uuid source cname bidx i stored store rem).2.2
          = batchesOf rem
      ∧ countUpserts (storeLoop oracle uuid source cname bidx i stored store rem).2.2
          = (batchesOf rem).length
      ∧ (storeLoop oracle uuid source cname bidx i stored store rem).2.2.filter Event.isSleep
          = List.replicate ((batchesOf rem).length - 1) (Event.sleepEv BASE_DELAY) := by
  intro n
  induction n with
  | zero =>
    intro rem h bidx i stored store
    have : rem = [] := List.length_eq_zero.mp (by omega)
    subst this
    rw [storeLoop]
    simp [embedBatches, countUpserts, batchesOf_nil]
  | succ m ih =>
    intro rem h bidx i stored store
    cases rem with
    | nil =>
      rw [storeLoop]
      simp [embedBatches, countUpserts, batchesOf_nil]
    | cons a t =>
      rw [storeLoop]
      simp only [List.isEmpty_cons, Bool.false_eq_true, dite_false]
      rw [embed_retry_first_success _ (oracle bidx) _ (hsucc bidx)]
      simp only []
      have hrest : ((a :: t).drop SAFE_BATCH_SIZE).length ≤ m := by
        simp only [List.length_drop, List.length_cons, SAFE_BATCH_SIZE]
        simp only [List.length_cons] at h
        omega
      obtain ⟨ih1, ih2, ih3, ih4⟩ :=
        ih ((a :: t).drop SAFE_BATCH_SIZE) hrest (bidx + 1) (i + SAFE_BATCH_SIZE)
          (stored + ((a :: t).take SAFE_BATCH_SIZE).length)
          (upsertPoints store (mkBatchPoints uuid source i (embsOf bidx)
            ((a :: t).take SAFE_BATCH_SIZE)))
      refine ⟨?_, ?_, ?_, ?_⟩
      · rw [ih1]
        simp only [List.length_take, List.length_drop, List.length_cons]
        congr 1
        omega
      · rw [batchesOf_cons]
        simp only [embedBatches, List.filterMap_append, List.filterMap_cons]
        simp only [embedBatches] at ih2
        rw [ih2]
        by_cases hr : ((a :: t).drop SAFE_BATCH_SIZE).isEmpty
        · simp [hr]
        · simp [hr]
      · rw [batchesOf_cons]
        simp only [countUpserts] at ih3 ⊢
        by_cases hr : ((a :: t).drop SAFE_BATCH_SIZE).isEmpty
        · simp [hr, Event.isUpsert, Event.isEmbedCall, Event.isSleep, List.filter_append,
            List.length_take] at ih3 ⊢
          omega
        · simp [hr, Event.isUpsert, Event.isEmbedCall, Event.isSleep, List.filter_append,
            List.length_take] at ih3 ⊢
          omega
      · simp only [List.filter_append, List.filter_cons, Event.isSleep]
        rw [ih4]
        by_cases hr : ((a :: t).drop SAFE_BATCH_SIZE).isEmpty
        · have : (a :: t).drop SAFE_BATCH_SIZE = [] := by
            cases hd : (a :: t).drop SAFE_BATCH_SIZE with
            | nil => rfl
            | cons x y => rw [hd] at hr; simp at hr
          rw [batchesOf_cons, this, batchesOf_nil]
          simp [hr, Event.isSleep, Event.isUpsert]
        · have hne : (a :: t).drop SAFE_BATCH_SIZE ≠ [] := by
            intro hc
            rw [hc] at hr
            simp at hr
          have hbne : batchesOf ((a :: t).drop SAFE_BATCH_SIZE) ≠ [] := by
            cases hd : (a :: t).drop SAFE_BATCH_SIZE with
            | nil => exact absurd hd hne
            | cons x y => exact batchesOf_cons_ne_nil x y
          rw [batchesOf_cons]
          simp only [hr, Event.isSleep, Event.isUpsert, if_false, if_true,
            Bool.false_eq_true, List.length_cons]
          have hlen : 0 < (batchesOf ((a :: t).drop SAFE_BATCH_SIZE)).length :=
            List.length_pos.mpr hbne
          simp only [List.filter_cons, Event.isSleep, List.filter_nil]
          rw [show (batchesOf ((a :: t).drop SAFE_BATCH_SIZE)).length + 1 - 1
              = ((batchesOf ((a :: t).drop SAFE_BATCH_SIZE)).length - 1) + 1 by omega]
          simp [List.replicate_succ]

/-! ### Identifier freshness and the points the batch loop persists -/

theorem genPoints_nil (uuid : Nat → String) (embsOf : Nat → List (List Int))
    (source : String) (bidx i : Nat) : genPoints uuid embsOf source bidx i [] = [] := by
  rw [genPoints]
  rfl

theorem genPoints_cons (uuid : Nat → String) (embsOf : Nat → List (List Int))
    (source : String) (bidx i : Nat) (a : String) (t : List String) :
    genPoints uuid embsOf source bidx i (a :: t)
      = mkBatchPoints uuid source i (embsOf bidx) ((a :: t).take SAFE_BATCH_SIZE)
        ++ genPoints uuid embsOf source (bidx + 1) (i + SAFE_BATCH_SIZE)
            ((a :: t).drop SAFE_BATCH_SIZE) := by
  rw [genPoints]
  rfl

theorem mkBatchPoints_id (uuid : Nat → String) (source : String) (i : Nat)
    (embs : List (List Int)) (batch : List String) :
    ∀ p ∈ mkBatchPoints uuid source i embs batch,
      ∃ j, j < batch.length ∧ p.id = uuid (i + j) := by
  intro p hp
  unfold mkBatchPoints at hp
  rcases List.mem_map.mp hp with ⟨x, hx, hfx⟩
  have hx1 : x.1 < (embs.zip batch).length := by
    have h := List.mem_enum_iff_getElem?.mp hx
    exact (List.getElem?_eq_some.mp h).1
  have hmin : (embs.zip batch).length = min embs.length batch.length := List.length_zip _ _
  have hle : min embs.length batch.length ≤ batch.length := Nat.min_le_right _ _
  refine ⟨x.1, by omega, ?_⟩
  rw [← hfx]

theorem mkBatchPoints_length (uuid : Nat → String) (source : String) (i : Nat)
    (embs : List (List Int)) (batch : List String) :
    (mkBatchPoints uuid source i embs batch).length = min embs.length batch.length := by
  unfold mkBatchPoints
  simp

theorem upsertPoints_fresh (store pts : List Point)
    (h : ∀ p ∈ store, ∀ q ∈ pts, q.id ≠ p.id) :
    upsertPoints store pts = store ++ pts := by
  unfold upsertPoints
  congr 1
  apply List.filter_eq_self.mpr
  intro p hp
  rw [List.all_eq_true]
  intro q hq
  exact bne_iff_ne.mpr (h p hp q hq)

theorem storeLoop_points (oracle : Nat → Nat → EmbedOutcome) (embsOf : Nat → List (List Int))
    (uuid : Nat → String) (source cname : String)
    (hsucc : ∀ b, oracle b 0 = EmbedOutcome.success (embsOf b))
    (hinj : ∀ k l, uuid k = uuid l → k = l) :
    ∀ n (rem : List String), rem.length ≤ n → ∀ bidx i stored store,
      (∀ p ∈ store, ∀ k, i ≤ k → uuid k ≠ p.id) →
      (storeLoop oracle uuid source cname bidx i stored store rem).2.1
        = store ++ genPoints uuid embsOf source bidx i rem := by
  intro n
  induction n with
  | zero =>
    intro rem h bidx i stored store _
    have : rem = [] := List.length_eq_zero.mp (by omega)
    subst this
    rw [storeLoop, genPoints]
    simp
  | succ m ih =>
    intro rem h bidx i stored store hfresh
    cases rem with
    | nil =>
      rw [storeLoop, genPoints]
      simp
    | cons a t =>
      rw [storeLoop]
      simp only [List.isEmpty_cons, Bool.false_eq_true, dite_false]
      rw [embed_retry_first_success _ (oracle bidx) _ (hsucc bidx)]
      simp only []
      have hup : upsertPoints store
          (mkBatchPoints uuid source i (embsOf bidx) ((a :: t).take SAFE_BATCH_SIZE))
          = store ++ mkBatchPoints uuid source i (embsOf bidx)
              ((a :: t).take SAFE_BATCH_SIZE) := by
        apply upsertPoints_fresh
        intro p hp q hq
        rcases mkBatchPoints_id uuid source i _ _ q hq with ⟨j, hj, hid⟩
        rw [hid]
        exact hfresh p hp (i + j) (Nat.le_add_right i j)
      rw [hup]
      have hrest : ((a :: t).drop SAFE_BATCH_SIZE).length ≤ m := by
        simp only [List.length_drop, List.length_cons, SAFE_BATCH_SIZE]
        simp only [List.length_cons] at h
        omega
      have hfresh2 : ∀ p ∈ store ++ mkBatchPoints uuid source i (embsOf bidx)
          ((a :: t).take SAFE_BATCH_SIZE),
          ∀ k, i + SAFE_BATCH_SIZE ≤ k → uuid k ≠ p.id := by
        intro p hp k hk
        rcases List.mem_append.mp hp with hp | hp
        · exact hfresh p hp k (by omega)
        · rcases mkBatchPoints_id uuid source i _ _ p hp with ⟨j, hj, hid⟩
          rw [hid]
          intro hcontra
          have hkj := hinj k (i + j) hcontra
          have hb : ((a :: t).take SAFE_BATCH_SIZE).length ≤ SAFE_BATCH_SIZE := by
            simp [List.length_take]
          omega
      rw [ih _ hrest (bidx + 1) (i + SAFE_BATCH_SIZE) _ _ hfresh2]
      rw [genPoints_cons, List.append_assoc]

theorem genPoints_length (uuid : Nat → String) (embsOf : Nat → List (List Int))
    (source : String) :
    ∀ n (rem : List String), rem.length ≤ n → ∀ bidx i,
      (∀ b, b < (batchesOf rem).length
        → (embsOf (bidx + b)).length = ((batchesOf rem).getD b []).length) →
      (genPoints uuid embsOf source bidx i rem).length = rem.length := by
  intro n
  induction n with
  | zero =>
    intro rem h bidx i _
    have : rem = [] := List.length_eq_zero.mp (by omega)
    subst this
    rw [genPoints_nil]
    rfl
  | succ m ih =>
    intro rem h bidx i hlen
    cases rem with
    | nil =>
      rw [genPoints_nil]
      rfl
    | cons a t =>
      rw [genPoints_cons, List.length_append, mkBatchPoints_length]
      have h0 : (embsOf bidx).length = ((a :: t).take SAFE_BATCH_SIZE).length := by
        have := hlen 0 (by rw [batchesOf_cons]; simp)
        rw [batchesOf_cons] at this
        simpa using this
      rw [h0, Nat.min_self]
      have hrest : ((a :: t).drop SAFE_BATCH_SIZE).length ≤ m := by
        simp only [List.length_drop, List.length_cons, SAFE_BATCH_SIZE]
        simp only [List.length_cons] at h
        omega
      rw [ih _ hrest (bidx + 1) (i + SAFE_BATCH_SIZE) (fun b hb => by
        have := hlen (b + 1) (by rw [batchesOf_cons]; simpa using hb)
        rw [batchesOf_cons] at this
        simpa [Nat.add_assoc, Nat.add_comm 1 b] using this)]
      simp only [List.length_take, List.length_drop, List.length_cons]
      omega

theorem genPoints_mem_id (uuid : Nat → String) (embsOf : Nat → List (List Int))
    (source : String) :
    ∀ n (rem : List String), rem.length ≤ n → ∀ bidx i,
      ∀ p ∈ genPoints uuid embsOf source bidx i rem, ∃ m, p.id = uuid m := by
  intro n
  induction n with
  | zero =>
    intro rem h bidx i p hp
    have : rem = [] := List.length_eq_zero.mp (by omega)
    subst this
    rw [genPoints_nil] at hp
    simp at hp
  | succ m ih =>
    intro rem h bidx i p hp
    cases rem with
    | nil =>
      rw [genPoints_nil] at hp
      simp at hp
    | cons a t =>
      rw [genPoints_cons] at hp
      rcases List.mem_append.mp hp with hp | hp
      · rcases mkBatchPoints_id uuid source i _ _ p hp with ⟨j, _, hid⟩
        exact ⟨i + j, hid⟩
      · have hrest : ((a :: t).drop SAFE_BATCH_SIZE).length ≤ m := by
          simp only [List.length_drop, List.length_cons, SAFE_BATCH_SIZE]
          simp only [List.length_cons] at h
          omega
        exact ih _ hrest (bidx + 1) (i + SAFE_BATCH_SIZE) p hp

theorem embed_and_store_appends (colls : List String) (schema : Schema)
    (poll : Nat → Schema) (oracle : Nat → Nat → EmbedOutcome)
    (embsOf : Nat → List (List Int)) (uuid : Nat → String) (store : List Point)
    (chunks : List String) (source cname : String)
    (hok : hasSourceKeyword schema = true)
    (hsucc : ∀ b, oracle b 0 = EmbedOutcome.success (embsOf b))
    (hinj : ∀ k l, uuid k = uuid l → k = l)
    (hfresh : ∀ p ∈ store, ∀ k, uuid k ≠ p.id) :
    (embed_and_store colls (QOutcome.ok schema) poll oracle uuid store chunks source cname).2.1
      = store ++ genPoints uuid embsOf source 0 0 chunks := by
  unfold embed_and_store
  rw [ensure_ok_of_keyword _ _ _ hok]
  simp only []
  by_cases hc : chunks.isEmpty
  · have : chunks = [] := by
      cases chunks with
      | nil => rfl
      | cons x y => simp at hc
    subst this
    rw [genPoints_nil]
    simp
  · simp only [hc, Bool.false_eq_true, if_false]
    exact storeLoop_points oracle embsOf uuid source cname hsucc hinj chunks.length chunks
      le_rfl 0 0 0 store (fun p hp k _ => hfresh p hp k)

/-! ### Rounding, stripping and trace shape lemmas -/

theorem round2_close (q : ℚ) : |round2 q - q| ≤ 1 / 200 := by
  unfold round2
  rw [abs_le]
  have h1 : (⌊q * 100 + 1 / 2⌋ : ℚ) ≤ q * 100 + 1 / 2 := Int.floor_le _
  have h2 : q * 100 + 1 / 2 - 1 < (⌊q * 100 + 1 / 2⌋ : ℚ) := Int.sub_one_lt_floor _
  constructor
  · linarith
  · linarith

theorem dropWhile_all {α : Type} (p : α → Bool) :
    ∀ l : List α, (∀ c ∈ l, p c = true) → l.dropWhile p = [] := by
  intro l h
  induction l with
  | nil => rfl
  | cons a t ih =>
    rw [List.dropWhile_cons]
    simp only [h a (by simp), if_true]
    exact ih (fun c hc => h c (by simp [hc]))

theorem pyStrip_whitespace (s : String) (h : ∀ c ∈ s.data, isPyWhitespace c = true) :
    (pyStrip s).data = [] := by
  unfold pyStrip
  rw [dropWhile_all _ _ h]
  rfl

theorem pollLoop_events (name : String) (poll : Nat → Schema) :
    ∀ fuel k, ∀ e ∈ (pollLoop name poll k fuel).2,
      e = Event.sleepEv 3 ∨ e = Event.getCollectionEv name := by
  intro fuel
  induction fuel with
  | zero => intro k e he; simp [pollLoop] at he
  | succ f ih =>
    intro k e he
    by_cases hk : hasSourceKeyword (poll k)
    · simp [pollLoop, hk] at he
      rcases he with he | he
      · exact Or.inl he
      · exact Or.inr he
    · simp only [pollLoop, hk, Bool.false_eq_true, if_false, List.mem_cons] at he
      rcases he with he | he | he
      · exact Or.inl he
      · exact Or.inr he
      · exact ih (k + 1) e he

theorem ensure_events (name : String) (initial : QOutcome Schema) (poll : Nat → Schema) :
    ∀ e ∈ (ensure_payload_indexes name initial poll).2,
      e = Event.getCollectionEv name ∨ e = Event.createIndexEv name ("source")
        ∨ e = Event.sleepEv 3 := by
  intro e he
  cases initial with
  | err msg =>
    simp [ensure_payload_indexes] at he
    exact Or.inl he
  | ok schema =>
    by_cases hs : hasSourceKeyword schema
    · simp [ensure_payload_indexes, hs] at he
      exact Or.inl he
    · simp only [ensure_payload_indexes, hs, Bool.false_eq_true, if_false,
        List.mem_cons] at he
      rcases he with he | he | he
      · exact Or.inl he
      · exact Or.inr (Or.inl he)
      · rcases pollLoop_events name poll 10 0 e he with h | h
        · exact Or.inr (Or.inr h)
        · exact Or.inl h

theorem ensure_no_provider_calls (name : String) (initial : QOutcome Schema)
    (poll : Nat → Schema) :
    countEmbedCalls (ensure_payload_indexes name initial poll).2 = 0
    ∧ countUpserts (ensure_payload_indexes name initial poll).2 = 0 := by
  constructor
  · simp only [countEmbedCalls]
    rw [List.filter_eq_nil_iff.mpr]
    · rfl
    · intro e he
      rcases ensure_events name initial poll e he with h | h | h <;>
        subst h <;> simp [Event.isEmbedCall]
  · simp only [countUpserts]
    rw [List.filter_eq_nil_iff.mpr]
    · rfl
    · intro e he
      rcases ensure_events name initial poll e he with h | h | h <;>
        subst h <;> simp [Event.isUpsert]

/-! ### The claims -/

/-- Claim C1.  The claim states that exhausting all allowed attempts of
embed_batch_with_retry always raises.  The code violates this: when the
final attempt is rejected with a rate-limit error the loop continues past
its range and the function falls through, returning None after all ten
provider attempts, while an all-other-error run does raise.  This theorem
evaluates the model on that failing input: ten rate-limited attempts end in
a plain None return, not an exception. -/
theorem C1_rate_limit_exhaustion_returns_none :
    (embed_batch_with_retry ["chunk"]
        (fun _ => EmbedOutcome.voyageError ("Rate limit exceeded"))).1 = PyOutcome.ok none
    ∧ countEmbedCalls (embed_batch_with_retry ["chunk"]
        (fun _ => EmbedOutcome.voyageError ("Rate limit exceeded"))).2 = 10
    ∧ (embed_batch_with_retry ["chunk"]
        (fun _ => EmbedOutcome.otherError ("server error"))).1
          = PyOutcome.raised ("server error") := by
  refine ⟨by decide, by decide, by decide⟩

/-- Claim C2, counterexample.  The claim states that search_relevant_chunks
never propagates any retrieval failure, index confirmation included.  Here
the index-confirmation read fails and the call raises instead of returning
an empty result. -/
theorem C2_counterexample :
    (search_relevant_chunks ["rag_u"] (QOutcome.err ("connection refused")) (fun _ => [])
        (QOutcome.ok [1]) (QOutcome.ok []) ("q") ("rag_u") 8).1
      = PyOutcome.raised ("connection refused") := by decide

/-- Claim C2, amended.  When index provisioning succeeds the call never
raises, and any embedding or similarity-search failure is caught and the
call returns the empty result sequence; but a failure while confirming the
payload indexes propagates to the caller whenever the collection exists. -/
theorem C2_amended_retrieval_degrades (colls : List String) (schema : Schema)
    (poll : Nat → Schema) (embedQ : QOutcome (List Int))
    (queryQ : QOutcome (List ScoredPoint)) (vec : List Int)
    (q cname msg emsg qmsg : String) (k : Nat)
    (hok : hasSourceKeyword schema = true) :
    isOk (search_relevant_chunks colls (QOutcome.ok schema) poll embedQ queryQ q cname k).1
        = true
    ∧ (search_relevant_chunks colls (QOutcome.ok schema) poll (QOutcome.err emsg) queryQ
        q cname k).1 = PyOutcome.ok []
    ∧ (search_relevant_chunks colls (QOutcome.ok schema) poll (QOutcome.ok vec)
        (QOutcome.err qmsg) q cname k).1 = PyOutcome.ok []
    ∧ (colls.contains cname = true →
        (search_relevant_chunks colls (QOutcome.err msg) poll embedQ queryQ q cname k).1
          = PyOutcome.raised msg) := by
  refine ⟨?_, ?_, ?_, ?_⟩
  · by_cases hc : colls.contains cname
    · have hc2 : cname ∈ colls := by simpa using hc
      cases embedQ with
      | err m =>
        simp [search_relevant_chunks, hc, hc2, ensure_payload_indexes, hok, isOk]
      | ok v =>
        cases queryQ with
        | err m =>
          simp [search_relevant_chunks, hc, hc2, ensure_payload_indexes, hok, isOk]
        | ok pts =>
          simp [search_relevant_chunks, hc, hc2, ensure_payload_indexes, hok, isOk]
    · have hc2 : cname ∉ colls := by simpa using hc
      simp [search_relevant_chunks, hc, hc2, isOk]
  · by_cases hc : colls.contains cname
    · have hc2 : cname ∈ colls := by simpa using hc
      simp [search_relevant_chunks, hc, hc2, ensure_payload_indexes, hok]
    · have hc2 : cname ∉ colls := by simpa using hc
      simp [search_relevant_chunks, hc, hc2]
  · by_cases hc : colls.contains cname
    · have hc2 : cname ∈ colls := by simpa using hc
      simp [search_relevant_chunks, hc, hc2, ensure_payload_indexes, hok]
    · have hc2 : cname ∉ colls := by simpa using hc
      simp [search_relevant_chunks, hc, hc2]
  · intro hc
    have hc2 : cname ∈ colls := by simpa using hc
    simp [search_relevant_chunks, hc, hc2, ensure_payload_indexes]

/-- Witness for C2: concrete runs where the question embedding fails and
where the similarity search fails, each returning the empty result
sequence, and a concrete run where index confirmation fails and the
exception propagates. -/
theorem C2_amended_retrieval_degrades_witness :
    isOk (search_relevant_chunks ["rag_u"] (QOutcome.ok [("source", "keyword")]) (fun _ => [])
        (QOutcome.err ("embed down")) (QOutcome.ok []) ("q") ("rag_u") 8).1 = true
    ∧ (search_relevant_chunks ["rag_u"] (QOutcome.ok [("source", "keyword")]) (fun _ => [])
        (QOutcome.err ("embed down")) (QOutcome.ok []) ("q") ("rag_u") 8).1
      = PyOutcome.ok []
    ∧ (search_relevant_chunks ["rag_u"] (QOutcome.ok [("source", "keyword")]) (fun _ => [])
        (QOutcome.ok [1]) (QOutcome.err ("search down")) ("q") ("rag_u") 8).1
      = PyOutcome.ok []
    ∧ (search_relevant_chunks ["rag_u"] (QOutcome.err ("index down")) (fun _ => [])
        (QOutcome.err ("embed down")) (QOutcome.ok []) ("q") ("rag_u") 8).1
      = PyOutcome.raised ("index down") :=
  ⟨(C2_amended_retrieval_degrades ["rag_u"] [("source", "keyword")] (fun _ => [])
      (QOutcome.err ("embed down")) (QOutcome.ok []) [1] ("q") ("rag_u") ("index down")
      ("embed down") ("search down") 8 (by decide)).1,
    (C2_amended_retrieval_degrades ["rag_u"] [("source", "keyword")] (fun _ => [])
      (QOutcome.err ("embed down")) (QOutcome.ok []) [1] ("q") ("rag_u") ("index down")
      ("embed down") ("search down") 8 (by decide)).2.1,
    (C2_amended_retrieval_degrades ["rag_u"] [("source", "keyword")] (fun _ => [])
      (QOutcome.err ("embed down")) (QOutcome.ok []) [1] ("q") ("rag_u") ("index down")
      ("embed down") ("search down") 8 (by decide)).2.2.1,
    (C2_amended_retrieval_degrades ["rag_u"] [("source", "keyword")] (fun _ => [])
      (QOutcome.err ("embed down")) (QOutcome.ok []) [1] ("q") ("rag_u") ("index down")
      ("embed down") ("search down") 8 (by decide)).2.2.2 (by decide)⟩

/-- Claim C3, counterexample.  The claim states that an empty chunk
sequence returns 0 with no network calls at all.  The model returns 0 but
the trace still carries two vector-store requests, the collection listing
and the index read, because the empty check only runs after provisioning. -/
theorem C3_counterexample :
    (embed_and_store ["rag_u"] (QOutcome.ok [("source", "keyword")]) (fun _ => [])
        (fun _ _ => EmbedOutcome.otherError ("unused")) (fun _ => "id") [] []
        ("doc.pdf") ("rag_u")).1 = PyOutcome.ok 0
    ∧ (embed_and_store ["rag_u"] (QOutcome.ok [("source", "keyword")]) (fun _ => [])
        (fun _ _ => EmbedOutcome.otherError ("unused")) (fun _ => "id") [] []
        ("doc.pdf") ("rag_u")).2.2.filter Event.isNetwork
      = [Event.getCollectionsEv, Event.getCollectionEv ("rag_u")] := by
  refine ⟨by decide, by decide⟩

/-- Claim C3, amended.  When provisioning succeeds, calling embed_and_store
with an empty chunk sequence returns 0, leaves the stored points unchanged
and performs no embedding-provider call and no upsert; it does still issue
the collection listing and index provisioning requests to the vector
store. -/
theorem C3_amended_empty_chunks (colls : List String) (ensureInit : QOutcome Schema)
    (poll : Nat → Schema) (oracle : Nat → Nat → EmbedOutcome) (uuid : Nat → String)
    (store : List Point) (source cname : String)
    (hens : (ensure_payload_indexes cname ensureInit poll).1 = PyOutcome.ok ()) :
    (embed_and_store colls ensureInit poll oracle uuid store [] source cname).1
        = PyOutcome.ok 0
    ∧ (embed_and_store colls ensureInit poll oracle uuid store [] source cname).2.1 = store
    ∧ countEmbedCalls
        (embed_and_store colls ensureInit poll oracle uuid store [] source cname).2.2 = 0
    ∧ countUpserts
        (embed_and_store colls ensureInit poll oracle uuid store [] source cname).2.2
        = 0 := by
  obtain ⟨hce, hcu⟩ := ensure_no_provider_calls cname ensureInit poll
  simp only [countEmbedCalls, countUpserts] at hce hcu ⊢
  have hce2 : List.filter Event.isEmbedCall (ensure_payload_indexes cname ensureInit poll).2
      = [] := List.length_eq_zero.mp hce
  have hcu2 : List.filter Event.isUpsert (ensure_payload_indexes cname ensureInit poll).2
      = [] := List.length_eq_zero.mp hcu
  simp only [embed_and_store]
  rw [hens]
  by_cases hc : colls.contains cname
  · have hc2 : cname ∈ colls := by simpa using hc
    simp [hc, hc2, List.filter_append, Event.isEmbedCall, Event.isUpsert, hce2, hcu2]
  · have hc2 : cname ∉ colls := by simpa using hc
    simp [hc, hc2, List.filter_append, Event.isEmbedCall, Event.isUpsert, hce2, hcu2]

/-- Witness for C3: the empty ingestion on a concrete provisioned store. -/
theorem C3_amended_empty_chunks_witness :
    (embed_and_store ["rag_u"] (QOutcome.ok [("source", "keyword")]) (fun _ => [])
        (fun _ _ => EmbedOutcome.otherError ("unused")) (fun _ => "id") [] []
        ("a.txt") ("rag_u")).1 = PyOutcome.ok 0
    ∧ (embed_and_store ["rag_u"] (QOutcome.ok [("source", "keyword")]) (fun _ => [])
        (fun _ _ => EmbedOutcome.otherError ("unused")) (fun _ => "id") [] []
        ("a.txt") ("rag_u")).2.1 = []
    ∧ countEmbedCalls (embed_and_store ["rag_u"] (QOutcome.ok [("source", "keyword")])
        (fun _ => []) (fun _ _ => EmbedOutcome.otherError ("unused")) (fun _ => "id") [] []
        ("a.txt") ("rag_u")).2.2 = 0
    ∧ countUpserts (embed_and_store ["rag_u"] (QOutcome.ok [("source", "keyword")])
        (fun _ => []) (fun _ _ => EmbedOutcome.otherError ("unused")) (fun _ => "id") [] []
        ("a.txt") ("rag_u")).2.2 = 0 :=
  C3_amended_empty_chunks ["rag_u"] (QOutcome.ok [("source", "keyword")]) (fun _ => [])
    (fun _ _ => EmbedOutcome.otherError ("unused")) (fun _ => "id") [] ("a.txt") ("rag_u")
    (by decide)

/-- Claim C4.  ensure_payload_indexes is idempotent: with the keyword index
on source already present it issues no index-creation request and returns
successfully; otherwise it requests the creation and polls at most ten
times at three-second spacing, and raises when all ten polls leave the
index unconfirmed. -/
theorem C4_ensure_payload_indexes_provisioning (name : String) (schema : Schema)
    (poll : Nat → Schema) :
    (hasSourceKeyword schema = true →
      ensure_payload_indexes name (QOutcome.ok schema) poll
        = (PyOutcome.ok (), [Event.getCollectionEv name]))
    ∧ (hasSourceKeyword schema = false →
        Event.createIndexEv name ("source")
            ∈ (ensure_payload_indexes name (QOutcome.ok schema) poll).2
        ∧ (∀ s, Event.sleepEv s ∈ (ensure_payload_indexes name (QOutcome.ok schema) poll).2
            → s = 3)
        ∧ countSleeps (ensure_payload_indexes name (QOutcome.ok schema) poll).2 ≤ 10
        ∧ ((∀ k, k < 10 → hasSourceKeyword (poll k) = false) →
            (ensure_payload_indexes name (QOutcome.ok schema) poll).1
              = PyOutcome.raised ("Failed to confirm index for source after 10 attempts"))) := by
  constructor
  · intro hok
    exact ensure_ok_of_keyword name schema poll hok
  · intro hno
    refine ⟨?_, ?_, ?_, ?_⟩
    · simp [ensure_payload_indexes, hno]
    · intro s hs
      simp only [ensure_payload_indexes, hno, Bool.false_eq_true, if_false,
        List.mem_cons] at hs
      rcases hs with hs | hs | hs
      · exact absurd hs (by simp)
      · exact absurd hs (by simp)
      · exact pollLoop_sleep_seconds name poll 10 0 s hs
    · simp only [ensure_payload_indexes, hno, Bool.false_eq_true, if_false, countSleeps,
        List.filter_cons, Event.isSleep]
      have := pollLoop_sleep_count name poll 10 0
      simp only [countSleeps] at this
      simpa using this
    · intro hall
      simp only [ensure_payload_indexes, hno, Bool.false_eq_true, if_false]
      have := pollLoop_all_fail name poll 10 0 (fun j hj => by simpa using hall j hj)
      simpa using this

/-- Witness for C4: with the index present the call is a pure no-op, and
with an empty schema and polls that never confirm it raises after the
bounded polling. -/
theorem C4_ensure_payload_indexes_provisioning_witness :
    ensure_payload_indexes ("rag_u") (QOutcome.ok [("source", "keyword")]) (fun _ => [])
        = (PyOutcome.ok (), [Event.getCollectionEv ("rag_u")])
    ∧ Event.createIndexEv ("rag_u") ("source")
        ∈ (ensure_payload_indexes ("rag_u") (QOutcome.ok ([] : Schema)) (fun _ => [])).2
    ∧ countSleeps (ensure_payload_indexes ("rag_u") (QOutcome.ok ([] : Schema))
        (fun _ => [])).2 ≤ 10
    ∧ (ensure_payload_indexes ("rag_u") (QOutcome.ok ([] : Schema)) (fun _ => [])).1
        = PyOutcome.raised ("Failed to confirm index for source after 10 attempts") :=
  ⟨(C4_ensure_payload_indexes_provisioning ("rag_u") [("source", "keyword")]
      (fun _ => [])).1 (by decide),
    ((C4_ensure_payload_indexes_provisioning ("rag_u") ([] : Schema) (fun _ => [])).2
      (by decide)).1,
    ((C4_ensure_payload_indexes_provisioning ("rag_u") ([] : Schema) (fun _ => [])).2
      (by decide)).2.2.1,
    ((C4_ensure_payload_indexes_provisioning ("rag_u") ([] : Schema) (fun _ => [])).2
      (by decide)).2.2.2 (fun k _ => by decide)⟩

/-- Claim C6.  Searching a collection that is absent from the vector store
returns the empty list and does not raise. -/
theorem C6_search_missing_collection (colls : List String) (ensureInit : QOutcome Schema)
    (poll : Nat → Schema) (embedQ : QOutcome (List Int))
    (queryQ : QOutcome (List ScoredPoint)) (q cname : String) (k : Nat)
    (h : colls.contains cname = false) :
    (search_relevant_chunks colls ensureInit poll embedQ queryQ q cname k).1
      = PyOutcome.ok [] := by
  have h2 : cname ∉ colls := by simpa using h
  simp [search_relevant_chunks, h, h2]

/-- Witness for C6: a concrete search against a store with no collection of
that name, with every downstream oracle poised to fail. -/
theorem C6_search_missing_collection_witness :
    (search_relevant_chunks ["rag_other"] (QOutcome.err ("down")) (fun _ => [])
        (QOutcome.err ("down")) (QOutcome.err ("down")) ("q") ("rag_u") 8).1
      = PyOutcome.ok [] :=
  C6_search_missing_collection ["rag_other"] (QOutcome.err ("down")) (fun _ => [])
    (QOutcome.err ("down")) (QOutcome.err ("down")) ("q") ("rag_u") 8 (by decide)

/-- Claim C9.  chunk_text returns the empty chunk list, without any error,
on every input that is empty or made only of whitespace; the splitter is
never consulted on such input. -/
theorem C9_chunk_text_whitespace (splitter : String → PyOutcome (List String))
    (s : String) (h : ∀ c ∈ s.data, isPyWhitespace c = true) :
    chunk_text splitter s = PyOutcome.ok [] := by
  have hd := pyStrip_whitespace s h
  simp [chunk_text, hd]

/-- Witness for C9: a whitespace-only input returns the empty list even
when the splitter would crash. -/
theorem C9_chunk_text_whitespace_witness :
    chunk_text (fun _ => PyOutcome.raised ("splitter crash")) ("  \n\t \r ")
      = PyOutcome.ok [] :=
  C9_chunk_text_whitespace (fun _ => PyOutcome.raised ("splitter crash")) ("  \n\t \r ")
    (by decide)

/-- Claim C5.  On an always-successful embedding oracle and a provisioned
collection, embed_and_store partitions the chunks into consecutive batches
of at most SAFE_BATCH_SIZE preserving the original order (their
concatenation is the input), issues exactly one embedding call and one
upsert per batch, sleeps the BASE_DELAY pacing delay between batches but
not after the last, and returns a stored count equal to the number of
input chunks. -/
theorem C5_batching_and_pacing (chunks : List String) (colls : List String)
    (schema : Schema) (poll : Nat → Schema) (oracle : Nat → Nat → EmbedOutcome)
    (embsOf : Nat → List (List Int)) (uuid : Nat → String) (store : List Point)
    (source cname : String)
    (hok : hasSourceKeyword schema = true)
    (hsucc : ∀ b, oracle b 0 = EmbedOutcome.success (embsOf b)) :
    (embed_and_store colls (QOutcome.ok schema) poll oracle uuid store chunks
        source cname).1 = PyOutcome.ok chunks.length
    ∧ embedBatches (embed_and_store colls (QOutcome.ok schema) poll oracle uuid store
        chunks source cname).2.2 = batchesOf chunks
    ∧ (batchesOf chunks).flatten = chunks
    ∧ (∀ b ∈ batchesOf chunks, b.length ≤ SAFE_BATCH_SIZE)
    ∧ countUpserts (embed_and_store colls (QOutcome.ok schema) poll oracle uuid store
        chunks source cname).2.2 = (batchesOf chunks).length
    ∧ (embed_and_store colls (QOutcome.ok schema) poll oracle uuid store
        chunks source cname).2.2.filter Event.isSleep
      = List.replicate ((batchesOf chunks).length - 1) (Event.sleepEv BASE_DELAY) := by
  have hens := ensure_ok_of_keyword cname schema poll hok
  have hform : embed_and_store colls (QOutcome.ok schema) poll oracle uuid store chunks
      source cname
      = ((storeLoop oracle uuid source cname 0 0 0 store chunks).1,
          (storeLoop oracle uuid source cname 0 0 0 store chunks).2.1,
          ((if colls.contains cname = true then [Event.getCollectionsEv]
            else [Event.getCollectionsEv, Event.createCollectionEv cname])
            ++ [Event.getCollectionEv cname])
            ++ (storeLoop oracle uuid source cname 0 0 0 store chunks).2.2) := by
    simp only [embed_and_store, hens]
    by_cases hc : chunks.isEmpty
    · have hnil : chunks = [] := by
        cases chunks with
        | nil => rfl
        | cons x y => simp at hc
      subst hnil
      rw [storeLoop]
      simp
    · simp [hc]
  obtain ⟨h1, h2, h3, h4⟩ :=
    storeLoop_success oracle embsOf uuid source cname hsucc chunks.length chunks le_rfl
      0 0 0 store
  refine ⟨?_, ?_, batchesOf_join chunks.length chunks le_rfl,
    batchesOf_sizes chunks.length chunks le_rfl, ?_, ?_⟩
  · rw [hform]
    simpa using h1
  · rw [hform]
    simp only [embedBatches] at h2 ⊢
    by_cases hc : colls.contains cname
    · have hc2 : cname ∈ colls := by simpa using hc
      simp [hc, hc2, List.filterMap_append, h2]
    · have hc2 : cname ∉ colls := by simpa using hc
      simp [hc, hc2, List.filterMap_append, h2]
  · rw [hform]
    simp only [countUpserts] at h3 ⊢
    by_cases hc : colls.contains cname
    · have hc2 : cname ∈ colls := by simpa using hc
      simp [hc, hc2, List.filter_append, Event.isEmbedCall, Event.isUpsert, h3]
    · have hc2 : cname ∉ colls := by simpa using hc
      simp [hc, hc2, List.filter_append, Event.isEmbedCall, Event.isUpsert, h3]
  · rw [hform]
    by_cases hc : colls.contains cname
    · have hc2 : cname ∈ colls := by simpa using hc
      simp [hc, hc2, List.filter_append, Event.isSleep, h4]
    · have hc2 : cname ∉ colls := by simpa using hc
      simp [hc, hc2, List.filter_append, Event.isSleep, h4]

/-- Witness for C5: ingesting the concrete twenty-chunk document yields a
stored count of 20, batches of sizes 8, 8 and 4 whose concatenation is the
input, three upserts and exactly two pacing delays. -/
theorem C5_batching_and_pacing_witness :
    (embed_and_store ["rag_u"] (QOutcome.ok [("source", "keyword")]) (fun _ => [])
        (fun _ _ => EmbedOutcome.success [[1]]) (fun _ => "u") [] c20
        ("doc.pdf") ("rag_u")).1 = PyOutcome.ok 20
    ∧ countUpserts (embed_and_store ["rag_u"] (QOutcome.ok [("source", "keyword")])
        (fun _ => []) (fun _ _ => EmbedOutcome.success [[1]]) (fun _ => "u") [] c20
        ("doc.pdf") ("rag_u")).2.2 = 3
    ∧ (embed_and_store ["rag_u"] (QOutcome.ok [("source", "keyword")]) (fun _ => [])
        (fun _ _ => EmbedOutcome.success [[1]]) (fun _ => "u") [] c20
        ("doc.pdf") ("rag_u")).2.2.filter Event.isSleep
      = List.replicate 2 (Event.sleepEv BASE_DELAY)
    ∧ (batchesOf c20).map List.length = [8, 8, 4]
    ∧ (batchesOf c20).flatten = c20 := by
  obtain ⟨h1, h2, h3, h4, h5, h6⟩ :=
    C5_batching_and_pacing c20 ["rag_u"] [("source", "keyword")] (fun _ => [])
      (fun _ _ => EmbedOutcome.success [[1]]) (fun _ => [[1]]) (fun _ => "u") []
      ("doc.pdf") ("rag_u") (by decide) (fun b => rfl)
  have hb3 : (batchesOf c20).length = 3 := by
    simp [batchesOf, c20, SAFE_BATCH_SIZE]
  have hbm : (batchesOf c20).map List.length = [8, 8, 4] := by
    simp [batchesOf, c20, SAFE_BATCH_SIZE]
  refine ⟨?_, ?_, ?_, hbm, h3⟩
  · rw [h1]
    rfl
  · rw [h5, hb3]
  · rw [h6, hb3]

/-- Claim C7.  delete_user_document is a no-op on an absent collection;
on a present, provisioned collection it removes exactly the points whose
source payload equals the filename, keeps every point with a different
source, and re-raises a store deletion failure to the caller. -/
theorem C7_delete_document_scoped (colls : List String) (ensureInit : QOutcome Schema)
    (poll : Nat → Schema) (deleteQ : QOutcome Unit) (store : List Point)
    (cname filename msg : String) :
    (colls.contains cname = false →
      delete_user_document colls ensureInit poll deleteQ store cname filename
        = (PyOutcome.ok (), store, [Event.getCollectionsEv]))
    ∧ (colls.contains cname = true →
        (ensure_payload_indexes cname ensureInit poll).1 = PyOutcome.ok () →
        ((delete_user_document colls ensureInit poll (QOutcome.ok ()) store cname
            filename).1 = PyOutcome.ok ()
          ∧ (delete_user_document colls ensureInit poll (QOutcome.ok ()) store cname
              filename).2.1 = store.filter (fun p => p.source != filename))
        ∧ ((delete_user_document colls ensureInit poll (QOutcome.err msg) store cname
              filename).1 = PyOutcome.raised msg
          ∧ (delete_user_document colls ensureInit poll (QOutcome.err msg) store cname
              filename).2.1 = store)) := by
  constructor
  · intro hc
    have hc2 : cname ∉ colls := by simpa using hc
    simp [delete_user_document, hc, hc2]
  · intro hc hens
    have hc2 : cname ∈ colls := by simpa using hc
    refine ⟨⟨?_, ?_⟩, ?_, ?_⟩ <;>
      simp [delete_user_document, hc, hc2, hens]

/-- Witness for C7: deleting from a store without the collection leaves the
points alone, and deleting a concrete filename from a present collection
keeps exactly the point of the other source, while a failing store delete
re-raises. -/
theorem C7_delete_document_scoped_witness :
    delete_user_document [] (QOutcome.err ("down")) (fun _ => []) (QOutcome.ok ())
        [Point.mk ("a1") [1] ("t1") ("f1") 0] ("rag_u") ("f1")
      = (PyOutcome.ok (), [Point.mk ("a1") [1] ("t1") ("f1") 0], [Event.getCollectionsEv])
    ∧ (delete_user_document ["rag_u"] (QOutcome.ok [("source", "keyword")]) (fun _ => [])
        (QOutcome.ok ())
        [Point.mk ("a1") [1] ("t1") ("f1") 0, Point.mk ("a2") [2] ("t2") ("f2") 1]
        ("rag_u") ("f1")).2.1
      = [Point.mk ("a2") [2] ("t2") ("f2") 1]
    ∧ (delete_user_document ["rag_u"] (QOutcome.ok [("source", "keyword")]) (fun _ => [])
        (QOutcome.err ("delete failed"))
        [Point.mk ("a1") [1] ("t1") ("f1") 0, Point.mk ("a2") [2] ("t2") ("f2") 1]
        ("rag_u") ("f1")).1
      = PyOutcome.raised ("delete failed") := by
  refine ⟨(C7_delete_document_scoped [] (QOutcome.err ("down")) (fun _ => [])
      (QOutcome.ok ()) [Point.mk ("a1") [1] ("t1") ("f1") 0] ("rag_u") ("f1")
      ("x")).1 (by decide), ?_, ?_⟩
  · have h := ((C7_delete_document_scoped ["rag_u"] (QOutcome.ok [("source", "keyword")])
      (fun _ => []) (QOutcome.ok ())
      [Point.mk ("a1") [1] ("t1") ("f1") 0, Point.mk ("a2") [2] ("t2") ("f2") 1]
      ("rag_u") ("f1") ("delete failed")).2 (by decide) (by decide)).1.2
    rw [h]
    decide
  · exact ((C7_delete_document_scoped ["rag_u"] (QOutcome.ok [("source", "keyword")])
      (fun _ => []) (QOutcome.ok ())
      [Point.mk ("a1") [1] ("t1") ("f1") 0, Point.mk ("a2") [2] ("t2") ("f2") 1]
      ("rag_u") ("f1") ("delete failed")).2 (by decide) (by decide)).2.1

/-- Claim C8.  get_collection_stats reports the stored point count, a used
capacity that is the point count times ESTIMATED_BYTES_PER_CHUNK scaled to
megabytes (up to the two-decimal rounding of the readout), and on any read
failure returns the zeroed record whose remaining capacity is the full
fixed limit, rather than raising. -/
theorem C8_stats_estimate_and_fallback (n : Nat) (msg : String) :
    (get_collection_stats (QOutcome.ok n)).total_chunks = n
    ∧ (get_collection_stats (QOutcome.ok n)).limit_mb = USER_STORAGE_LIMIT_MB
    ∧ |(get_collection_stats (QOutcome.ok n)).used_mb
        - (n * ESTIMATED_BYTES_PER_CHUNK : ℚ) / (1024 * 1024)| ≤ 1 / 200
    ∧ get_collection_stats (QOutcome.err msg)
        = { total_chunks := 0, used_mb := 0, available_mb := (USER_STORAGE_LIMIT_MB : ℚ),
            limit_mb := USER_STORAGE_LIMIT_MB } := by
  refine ⟨rfl, rfl, ?_, rfl⟩
  have h := round2_close ((n * ESTIMATED_BYTES_PER_CHUNK : ℚ) / (1024 * 1024))
  simpa [get_collection_stats] using h

/-- Witness for C8: the stats readout at a concrete count and a concrete
failed read. -/
theorem C8_stats_estimate_and_fallback_witness :
    (get_collection_stats (QOutcome.ok 100)).total_chunks = 100
    ∧ (get_collection_stats (QOutcome.ok 100)).limit_mb = USER_STORAGE_LIMIT_MB
    ∧ |(get_collection_stats (QOutcome.ok 100)).used_mb
        - (100 * ESTIMATED_BYTES_PER_CHUNK : ℚ) / (1024 * 1024)| ≤ 1 / 200
    ∧ get_collection_stats (QOutcome.err ("read failed"))
        = { total_chunks := 0, used_mb := 0, available_mb := (USER_STORAGE_LIMIT_MB : ℚ),
            limit_mb := USER_STORAGE_LIMIT_MB } :=
  C8_stats_estimate_and_fallback 100 ("read failed")

/-- Claim C10.  embed_and_store draws a fresh identifier for every stored
point and never removes or overwrites existing points: with fresh
identifier streams, one ingestion appends its full point set to the store,
and re-ingesting the same document appends a second full set alongside the
first rather than replacing it, even though upsertPoints does replace a
point whose identifier collides. -/
theorem C10_reingest_adds_points (chunks : List String) (source cname : String)
    (colls : List String) (schema : Schema) (poll : Nat → Schema)
    (oracle : Nat → Nat → EmbedOutcome) (embsOf : Nat → List (List Int))
    (uuid1 uuid2 : Nat → String) (store0 : List Point) (p0 q0 : Point)
    (hok : hasSourceKeyword schema = true)
    (hsucc : ∀ b, oracle b 0 = EmbedOutcome.success (embsOf b))
    (hlen : ∀ b, b < (batchesOf chunks).length
      → (embsOf b).length = ((batchesOf chunks).getD b []).length)
    (hinj1 : ∀ k l, uuid1 k = uuid1 l → k = l)
    (hinj2 : ∀ k l, uuid2 k = uuid2 l → k = l)
    (hfresh1 : ∀ p ∈ store0, ∀ k, uuid1 k ≠ p.id)
    (hfresh2 : ∀ p ∈ store0, ∀ k, uuid2 k ≠ p.id)
    (hdistinct : ∀ k l, uuid2 k ≠ uuid1 l) :
    (embed_and_store colls (QOutcome.ok schema) poll oracle uuid1 store0 chunks
        source cname).2.1
      = store0 ++ genPoints uuid1 embsOf source 0 0 chunks
    ∧ (embed_and_store colls (QOutcome.ok schema) poll oracle uuid2
          (store0 ++ genPoints uuid1 embsOf source 0 0 chunks) chunks source cname).2.1
      = store0 ++ genPoints uuid1 embsOf source 0 0 chunks
          ++ genPoints uuid2 embsOf source 0 0 chunks
    ∧ (genPoints uuid1 embsOf source 0 0 chunks).length = chunks.length
    ∧ (genPoints uuid2 embsOf source 0 0 chunks).length = chunks.length
    ∧ (q0.id = p0.id → upsertPoints [p0] [q0] = [q0]) := by
  have hP1 := embed_and_store_appends colls schema poll oracle embsOf uuid1 store0 chunks
    source cname hok hsucc hinj1 hfresh1
  have hfreshP : ∀ p ∈ store0 ++ genPoints uuid1 embsOf source 0 0 chunks,
      ∀ k, uuid2 k ≠ p.id := by
    intro p hp k
    rcases List.mem_append.mp hp with hp | hp
    · exact hfresh2 p hp k
    · rcases genPoints_mem_id uuid1 embsOf source chunks.length chunks le_rfl 0 0 p hp
        with ⟨m, hm⟩
      rw [hm]
      exact hdistinct k m
  have hP2 := embed_and_store_appends colls schema poll oracle embsOf uuid2
    (store0 ++ genPoints uuid1 embsOf source 0 0 chunks) chunks source cname hok hsucc
    hinj2 hfreshP
  refine ⟨hP1, hP2, ?_, ?_, ?_⟩
  · exact genPoints_length uuid1 embsOf source chunks.length chunks le_rfl 0 0
      (fun b hb => by simpa using hlen b hb)
  · exact genPoints_length uuid2 embsOf source chunks.length chunks le_rfl 0 0
      (fun b hb => by simpa using hlen b hb)
  · intro hq
    unfold upsertPoints
    simp [hq]

/-- Witness for C10: a concrete two-chunk document ingested twice with two
disjoint identifier streams, the store growing by the full point set each
time, together with a concrete identifier collision that upsertPoints does
replace. -/
theorem C10_reingest_adds_points_witness :
    (embed_and_store ["rag_u"] (QOutcome.ok [("source", "keyword")]) (fun _ => [])
        (fun _ _ => EmbedOutcome.success [[1], [2]]) uuidU [] ["a", "b"]
        ("doc.pdf") ("rag_u")).2.1
      = [] ++ genPoints uuidU (fun _ => [[1], [2]]) ("doc.pdf") 0 0 ["a", "b"]
    ∧ (embed_and_store ["rag_u"] (QOutcome.ok [("source", "keyword")]) (fun _ => [])
        (fun _ _ => EmbedOutcome.success [[1], [2]]) uuidV
        ([] ++ genPoints uuidU (fun _ => [[1], [2]]) ("doc.pdf") 0 0 ["a", "b"])
        ["a", "b"] ("doc.pdf") ("rag_u")).2.1
      = [] ++ genPoints uuidU (fun _ => [[1], [2]]) ("doc.pdf") 0 0 ["a", "b"]
          ++ genPoints uuidV (fun _ => [[1], [2]]) ("doc.pdf") 0 0 ["a", "b"]
    ∧ (genPoints uuidU (fun _ => [[1], [2]]) ("doc.pdf") 0 0 ["a", "b"]).length = 2
    ∧ (genPoints uuidV (fun _ => [[1], [2]]) ("doc.pdf") 0 0 ["a", "b"]).length = 2
    ∧ upsertPoints [Point.mk ("x") [0] ("t") ("s") 0] [Point.mk ("x") [9] ("t9") ("s9") 9]
      = [Point.mk ("x") [9] ("t9") ("s9") 9] := by
  have hb2 : batchesOf ["a", "b"] = [["a", "b"]] := by
    simp [batchesOf, SAFE_BATCH_SIZE]
  obtain ⟨h1, h2, h3, h4, h5⟩ :=
    C10_reingest_adds_points ["a", "b"] ("doc.pdf") ("rag_u") ["rag_u"]
      [("source", "keyword")] (fun _ => []) (fun _ _ => EmbedOutcome.success [[1], [2]])
      (fun _ => [[1], [2]]) uuidU uuidV []
      (Point.mk ("x") [0] ("t") ("s") 0) (Point.mk ("x") [9] ("t9") ("s9") 9)
      (by decide) (fun b => rfl)
      (fun b hb => by
        rw [hb2] at hb
        simp only [List.length_cons, List.length_nil] at hb
        have hb0 : b = 0 := by omega
        subst hb0
        rw [hb2]
        rfl)
      (fun k l h => by
        have hd : List.replicate (k + 1) 'u' = List.replicate (l + 1) 'u' := by
          simpa [uuidU] using congrArg String.data h
        have := congrArg List.length hd
        simpa using this)
      (fun k l h => by
        have hd : List.replicate (k + 1) 'v' = List.replicate (l + 1) 'v' := by
          simpa [uuidV] using congrArg String.data h
        have := congrArg List.length hd
        simpa using this)
      (fun p hp k => by simp at hp)
      (fun p hp k => by simp at hp)
      (fun k l h => by
        have hd : List.replicate (k + 1) 'v' = List.replicate (l + 1) 'u' := by
          simpa [uuidU, uuidV] using congrArg String.data h
        rw [List.replicate_succ, List.replicate_succ] at hd
        exact absurd (List.cons.inj hd).1 (by decide))
  refine ⟨h1, h2, ?_, ?_, h5 rfl⟩
  · rw [h3]
    rfl
  · rw [h4]
    rfl

end RagPipeline

